import Mathlib

/-!
Shallow embedding of the `deepai-free-search` chat service, centred on the
streaming response pipeline:
  * `src/chat-service/src/services/streaming.py` (`OllamaStreamingService`),
  * `src/chat-service/src/main.py` (HTTP layer, conversation store, SSE wire),
  * `src/chat-service/src/repositories/vector_store.py` (`VectorStoreManager`),
  * `src/chat-service/src/schemas.py` (`DocumentUpsertRequest`).

Python dicts keyed by strings are embedded as insertion-ordered association
lists, machine integers as `Int` (Python integers are unbounded), the model
backend and vector store as explicit function / data parameters, and raised
exceptions as explicit values in result types.
-/

namespace ChatService

/-! ### Configuration (`src/core/config.py`, `AppSettings`) -/

/-- The settings fields the streaming pipeline reads
(`request_timeout`, `llm_model` in `src/core/config.py`). -/
structure AppSettings where
  request_timeout : Int
  llm_model : String
deriving Repr, DecidableEq

/-- The defaults declared in `AppSettings` (`request_timeout: int = 30`,
`llm_model: str = "deepseek-r1:14b"`). -/
def defaultSettings : AppSettings :=
  { request_timeout := 30, llm_model := "deepseek-r1:14b" }

/-! ### Data model -/

/-- `ChatMessage` (`src/main.py`): `role: str`, `content: str`. -/
structure ChatMessage where
  role : String
  content : String
deriving Repr, DecidableEq

/-- LangChain native message representation used by the model client
(`HumanMessage` / `AIMessage` / `SystemMessage` in `streaming.py`). -/
inductive LCMessage where
  | human (content : String)
  | ai (content : String)
  | system (content : String)
deriving Repr, DecidableEq

/-- The JSON values the service serialises onto the SSE wire: the event
dicts built in `generate_stream` contain only strings, integers and nested
string-keyed dicts.  Objects keep insertion order, as Python dicts do. -/
inductive Json where
  | str (s : String)
  | int (n : Int)
  | obj (fields : List (String × Json))

/-- A stream event as constructed by `generate_stream`
(`{"event": ..., "data": {...}, "retry": ...}`).  `retry` is `Int`
because the source never validates it. -/
structure StreamEvent where
  event : String
  data : List (String × Json)
  retry : Int

/-- The event dict as passed to `json.dumps` in `main.py` line 126. -/
def StreamEvent.toJson (e : StreamEvent) : Json :=
  .obj [("event", .str e.event), ("data", .obj e.data), ("retry", .int e.retry)]

/-- The `message` event of `streaming.py` lines 167-175. -/
def messageEvent (content conversationId model : String) (retry : Int) : StreamEvent :=
  { event := "message"
    data := [("content", .str content), ("conversation_id", .str conversationId),
             ("model", .str model)]
    retry := retry }

/-- The terminal `end` event of `streaming.py` lines 181-188. -/
def endEvent (conversationId : String) (retry : Int) : StreamEvent :=
  { event := "end"
    data := [("status", .str "completed"), ("conversation_id", .str conversationId)]
    retry := retry }

/-- The terminal `error` event of `streaming.py` lines 192-196 / 201-205. -/
def errorEvent (code : String) (retry : Int) : StreamEvent :=
  { event := "error", data := [("error", .str code)], retry := retry }

/-- An event is terminal when it is an `end` or an `error` event. -/
def StreamEvent.isTerminal (e : StreamEvent) : Prop :=
  e.event = "end" ∨ e.event = "error"

instance (e : StreamEvent) : Decidable e.isTerminal := by
  unfold StreamEvent.isTerminal; infer_instance

/-! ### `OllamaStreamingService.calculate_retry_timeout` (`streaming.py` 105-115) -/

/-- `calculate_retry_timeout`: `max_timeout = 20000; return min(2 * retry_timeout,
max_timeout)`. -/
def calculate_retry_timeout (retryTimeout : Int) : Int :=
  let max_timeout : Int := 20000
  min (2 * retryTimeout) max_timeout

/-! ### Message translation (`streaming.py` 138-152) -/

/-- One iteration of the role-dispatch loop: `user`/`assistant`/`system`
messages are converted to the LangChain representation, any other role is
dropped (`logger.warning("Ignored unknown role: ...")`, no exception). -/
def translateOne (m : ChatMessage) : Option LCMessage :=
  if m.role = "user" then some (.human m.content)
  else if m.role = "assistant" then some (.ai m.content)
  else if m.role = "system" then some (.system m.content)
  else none

/-- The whole loop building `lc_messages` in input order.  Attribute access
on a `ChatMessage` cannot raise `KeyError`, so the `except KeyError` branch
(`streaming.py` 150-152) is unreachable for these inputs and the loop is a
total function. -/
def translateMessages (messages : List ChatMessage) : List LCMessage :=
  messages.filterMap translateOne

/-! ### The model client and the streaming loop (`streaming.py` 117-206) -/

/-- How one call to `self._llm.astream(lc_messages)` ends, after yielding
its chunks: normal exhaustion, an `httpx.ReadTimeout`, or any other
exception. -/
inductive ModelOutcome where
  | completed
  | readTimeout
  | failure
deriving Repr, DecidableEq

/-- The model client: from the translated messages, the chunk contents it
yields and how the iteration ends.  A failing outcome means the exception is
raised after the listed chunks were yielded. -/
structure ModelClient where
  astream : List LCMessage → List String × ModelOutcome

/-- Result of iterating `generate_stream` to the end: the events it yielded,
the `StreamConnectionError` message it raised (if any), and the message list
the model backend received (`none` when `astream` was never entered). -/
structure GenResult where
  events : List StreamEvent
  raised : Option String
  modelInput : Option (List LCMessage)

/-- The chunk loop of `streaming.py` 165-178, with the explicit
`retry_timeout` state: each chunk is emitted as a `message` event carrying
the current `retry_timeout`, which is then reset to the baseline
(`settings.request_timeout`).  Returns the events and the final
`retry_timeout`. -/
def chunkLoop (conversationId model : String) (baseline : Int) :
    List String → Int → List StreamEvent × Int
  | [], rt => ([], rt)
  | c :: cs, rt =>
    let rest := chunkLoop conversationId model baseline cs baseline
    (messageEvent c conversationId model rt :: rest.1, rest.2)

/-- `OllamaStreamingService.generate_stream` (`streaming.py` 117-206),
iterated to completion by its caller.

* `llmInitialized` embeds `hasattr(self, '_llm') and self._llm is not None`;
  when false the function raises `StreamConnectionError("LLM service
  unavailable")` before yielding anything.
* Translation (lines 138-152) cannot raise for `ChatMessage` inputs.
* `retry_timeout` starts at `settings.request_timeout` (line 155).
* Context retrieval (lines 159-162) calls `get_relevant_context`, which is
  proved below never to raise; the retrieved context is not used.  The only
  failure point before the model stream is `messages[-1]`, which raises
  `IndexError` on an empty message list; the generic `except Exception`
  handler turns that into a `stream_failure` event plus
  `StreamConnectionError("Stream terminated")` before any chunk.
* On normal exhaustion the `end` event is yielded; on `httpx.ReadTimeout`
  a `stream_timeout` error event then `StreamConnectionError("Stream
  timeout")`; on any other exception a `stream_failure` error event then
  `StreamConnectionError("Stream terminated")`. -/
def generate_stream (stg : AppSettings) (llmInitialized : Bool) (llm : ModelClient)
    (messages : List ChatMessage) (conversationId : String) : GenResult :=
  if ¬ llmInitialized then
    { events := [], raised := some "LLM service unavailable", modelInput := none }
  else
    let lc_messages := translateMessages messages
    let retry_timeout := stg.request_timeout
    if messages.isEmpty then
      { events := [errorEvent "stream_failure" (calculate_retry_timeout retry_timeout)]
        raised := some "Stream terminated"
        modelInput := none }
    else
      let run := llm.astream lc_messages
      let looped := chunkLoop conversationId stg.llm_model stg.request_timeout run.1 retry_timeout
      match run.2 with
      | .completed =>
        { events := looped.1 ++ [endEvent conversationId looped.2]
          raised := none
          modelInput := some lc_messages }
      | .readTimeout =>
        { events := looped.1 ++ [errorEvent "stream_timeout" (calculate_retry_timeout looped.2)]
          raised := some "Stream timeout"
          modelInput := some lc_messages }
      | .failure =>
        { events := looped.1 ++ [errorEvent "stream_failure" (calculate_retry_timeout looped.2)]
          raised := some "Stream terminated"
          modelInput := some lc_messages }

/-! ### Conversation store and the `/message` endpoint (`main.py` 22, 99-142) -/

/-- One entry of the module-level `conversations` dict:
`{"user_id": str, "messages": list}`. -/
structure Conversation where
  user_id : String
  messages : List ChatMessage
deriving Repr, DecidableEq

/-- The `conversations` dict, as a map from conversation id to entry. -/
abbrev ConvStore : Type := String → Option Conversation

/-- Dict assignment `conversations[request.conversation_id] = conv`. -/
def ConvStore.set (store : ConvStore) (id : String) (c : Conversation) : ConvStore :=
  fun k => if k = id then some c else store k

/-- `ChatRequest` after pydantic validation: `user_id` / `conversation_id`
are always present, either client-supplied (matching the UUID pattern) or
produced by the `default_factory` (`str(uuid.uuid4())`). -/
structure ChatRequest where
  messages : List ChatMessage
  model : Option String
  stream : Option Bool
  user_id : String
  conversation_id : String

/-- A lowercase hexadecimal digit, the `[0-9a-f]` class of the pydantic
pattern. -/
def isLowerHexDigit (c : Char) : Bool :=
  (48 ≤ c.toNat && c.toNat ≤ 57) || (97 ≤ c.toNat && c.toNat ≤ 102)

/-- The pydantic field pattern on `user_id` / `conversation_id`
(`main.py` 90-97): `[0-9a-f]` runs of lengths 8-4-4-4-12 joined by hyphens,
anchored at both ends — 36 characters, hyphens at positions 8, 13, 18, 23,
lowercase hex digits elsewhere. -/
def uuidShaped (s : String) : Bool :=
  s.data.length == 36 &&
  (s.data.zip (List.range 36)).all fun p =>
    if p.2 == 8 || p.2 == 13 || p.2 == 18 || p.2 == 23 then p.1 == '-'
    else isLowerHexDigit p.1

/-- Resolution of an optional identifier field: pydantic uses the supplied
value when present, otherwise the `default_factory` result. -/
def resolveId (supplied : Option String) (fresh : String) : String :=
  supplied.getD fresh

/-- Keyword-argument binding of a Python call: every keyword used by the
caller must name a parameter of the callee, otherwise the call raises
`TypeError: ... got an unexpected keyword argument`. -/
def kwargsBind (params kwargs : List String) : Bool :=
  kwargs.all fun k => params.contains k

/-- The parameters of `OllamaStreamingService.generate_stream`
(`streaming.py` 117-120): `self, messages, conversation_id` — there is no
`user_id` parameter. -/
def generate_stream_param_names : List String :=
  ["messages", "conversation_id"]

/-- The keywords used at the call site `ollama_service.generate_stream(...)`
inside `generate()` (`main.py` 117-121). -/
def chat_endpoint_call_keywords : List String :=
  ["messages", "user_id", "conversation_id"]

/-- `conv = conversations.get(request.conversation_id, {"user_id":
request.user_id, "messages": []})` (`main.py` 104-107). -/
def getOrCreateConv (store : ConvStore) (req : ChatRequest) : Conversation :=
  (store req.conversation_id).getD { user_id := req.user_id, messages := [] }

/-- `full_messages = [*conv["messages"], *request.messages]`
(`main.py` 110-113). -/
def fullMessages (conv : Conversation) (req : ChatRequest) : List ChatMessage :=
  conv.messages ++ req.messages

/-- `chunk["data"]["content"]` for a `message` chunk; every `message` event
built by the source carries a string `content` field, so the fallback is
unreachable on service-produced events. -/
def contentOf (e : StreamEvent) : String :=
  match e.data.lookup "content" with
  | some (.str s) => s
  | _ => ""

/-- The accumulation in `generate()` (`main.py` 122-124): contents of the
chunks whose `event` field is `"message"`, in order. -/
def collectResponse (events : List StreamEvent) : List String :=
  (events.filter fun e => e.event = "message").map contentOf

/-- The post-stream history update (`main.py` 128-133):
`conv["messages"].extend([*new user turns, assistant turn]);
conversations[request.conversation_id] = conv`. -/
def updateConversationHistory (store : ConvStore) (req : ChatRequest)
    (conv : Conversation) (full_response : List String) : ConvStore :=
  store.set req.conversation_id
    { conv with
      messages := conv.messages ++ req.messages ++
        [{ role := "assistant", content := String.join full_response }] }

/-- Outcome of driving the inner async generator `generate()` of
`chat_endpoint` to its end: either it finished and updated the store, or an
exception escaped after the listed events had been yielded, leaving the
store as it was. -/
inductive BodyResult where
  | completed (events : List StreamEvent) (store : ConvStore)
  | raised (events : List StreamEvent) (exn : String) (store : ConvStore)

/-- The events a `BodyResult` delivered to the client. -/
def BodyResult.events : BodyResult → List StreamEvent
  | .completed evs _ => evs
  | .raised evs _ _ => evs

/-- The conversation store after a `BodyResult`. -/
def BodyResult.store : BodyResult → ConvStore
  | .completed _ st => st
  | .raised _ _ st => st

/-- The body of `generate()` (`main.py` 115-133), faithful to the call as
written: the call `ollama_service.generate_stream(messages=...,
user_id=..., conversation_id=...)` is checked against the callee's
parameter list first; if it does not bind, Python raises `TypeError` before
the stream produces anything and the history update is never reached.  When
a bound stream raises `StreamConnectionError`, the events yielded so far
have been forwarded and the update (lines 128-133) is skipped. -/
def runGenerate (stg : AppSettings) (llmInitialized : Bool) (llm : ModelClient)
    (store : ConvStore) (req : ChatRequest) : BodyResult :=
  let conv := getOrCreateConv store req
  let full_messages := fullMessages conv req
  if kwargsBind generate_stream_param_names chat_endpoint_call_keywords then
    let gs := generate_stream stg llmInitialized llm full_messages req.conversation_id
    match gs.raised with
    | some exn => .raised gs.events ("StreamConnectionError: " ++ exn) store
    | none =>
      let full_response := collectResponse gs.events
      .completed gs.events (updateConversationHistory store req conv full_response)
  else
    .raised [] "TypeError: generate_stream() got an unexpected keyword argument: user_id" store

/-- The response headers set by `chat_endpoint` (`main.py` 138-141). -/
def chatResponseHeaders (req : ChatRequest) : List (String × String) :=
  [("X-User-ID", req.user_id), ("X-Conversation-ID", req.conversation_id)]

/-! ### Vector store (`src/repositories/vector_store.py`) -/

/-- One scored hit returned by the collaborator call
`self._client.similarity_search_with_score(query, k, filter)`: a document
(`page_content`, `metadata`) and a cosine distance.  Scores are embedded as
rationals. -/
structure SearchHit where
  pageContent : String
  metadata : List (String × Json)
  score : Rat

/-- An element of the list `get_relevant_context` returns:
`{"text": ..., "metadata": ..., "score": 1 - score}`. -/
structure RetrievedDoc where
  text : String
  metadata : List (String × Json)
  score : Rat

/-- `VectorStoreManager.get_relevant_context` (`vector_store.py` 62-90).
`connected` embeds the `is_connected` property; `similarity` embeds the
collaborator search call (arguments: query, `k`, the conversation id used
in the metadata filter), returning either its result list or a raised
exception.  The source returns `[]` when not connected, and its
`except Exception` handler logs and returns `[]` on any raise, so the
embedded function is total — context-retrieval failure is never
propagated.  `k` defaults to 3 at the Python call sites. -/
def get_relevant_context (connected : Bool)
    (similarity : String → Nat → String → Except String (List SearchHit))
    (query conversation_id : String) (k : Nat) : List RetrievedDoc :=
  if ¬ connected then []
  else
    match similarity query k conversation_id with
    | .error _ => []
    | .ok results =>
      results.map fun h =>
        { text := h.pageContent, metadata := h.metadata, score := 1 - h.score }

/-! ### Document upsert (`vector_store.py` 92-111, `schemas.py`, `main.py` 144-157) -/

/-- One element of `DocumentUpsertRequest.documents`: the
`{id, text, metadata}` shape of the upsert API.  `str(...)` has already
been applied to the id, as `upsert_documents` does. -/
structure UpsertDoc where
  id : String
  text : String
  metadata : List (String × Json)

/-- `DocumentUpsertRequest` (`schemas.py` 4-6): exactly two fields,
`documents` and `conversation_id`.  There is no `user_id` field. -/
structure DocumentUpsertRequest where
  documents : List UpsertDoc
  conversation_id : String

/-- The declared field names of `DocumentUpsertRequest`. -/
def documentUpsertRequest_field_names : List String :=
  ["documents", "conversation_id"]

/-- Attribute access on a pydantic model instance is defined exactly when
the attribute names a declared field; otherwise Python raises
`AttributeError`. -/
def pyGetAttrDefined (fields : List String) (attr : String) : Bool :=
  fields.contains attr

/-- The parameters of `VectorStoreManager.upsert_documents`
(`vector_store.py` 92): `self, documents, conversation_id`. -/
def vs_upsert_documents_param_names : List String :=
  ["documents", "conversation_id"]

/-- The keywords used at the call site inside the `/upsert` handler
(`main.py` 148-151): `documents=..., user_id=...`. -/
def upsert_call_keywords : List String :=
  ["documents", "user_id"]

/-- A row as `VectorStoreManager.upsert_documents` hands it to
`add_texts`: id, text, and the metadata dict extended with the
conversation id (`vector_store.py` 97-106). -/
structure StoredRow where
  id : String
  text : String
  metadata : List (String × Json)

/-- `VectorStoreManager.upsert_documents` (`vector_store.py` 92-111):
raises `ConnectionError` when not connected; otherwise builds ids,
conversation-tagged metadatas and texts and calls `add_texts`, re-raising
any failure of that call. -/
def vs_upsert_documents (connected : Bool) (addTextsFailure : Option String)
    (documents : List UpsertDoc) (conversation_id : String) :
    Except String (List StoredRow) :=
  if ¬ connected then .error "ChromaDB not connected"
  else
    match addTextsFailure with
    | some msg => .error msg
    | none =>
      .ok (documents.map fun d =>
        { id := d.id, text := d.text
          metadata := d.metadata ++ [("conversation_id", .str conversation_id)] })

/-- The `/upsert` response: `{"status": "success"}` on the normal path,
`JSONResponse(status_code=500, content={"error": str(e)})` when the `try`
block raises (`main.py` 152-157). -/
inductive UpsertResponse where
  | success
  | errorJson (statusCode : Nat)
deriving Repr, DecidableEq

/-- The `/upsert` handler (`main.py` 144-157), with the vector-store
contents threaded as `rows`.  The `try` block first evaluates
`data.user_id` — an attribute `DocumentUpsertRequest` does not declare —
and then would bind the call
`upsert_documents(documents=..., user_id=...)` against a callee whose
parameters are `documents, conversation_id`.  Each failure is caught by
`except Exception` and answered with a 500 `{"error": ...}` payload; no
exception escapes the handler. -/
def upsert_endpoint (rows : List StoredRow) (data : DocumentUpsertRequest) :
    UpsertResponse × List StoredRow :=
  let attempt : Except String (List StoredRow) :=
    if ¬ pyGetAttrDefined documentUpsertRequest_field_names "user_id" then
      .error "AttributeError: 'DocumentUpsertRequest' object has no attribute 'user_id'"
    else if ¬ kwargsBind vs_upsert_documents_param_names upsert_call_keywords then
      .error "TypeError: upsert_documents() got an unexpected keyword argument: user_id"
    else
      -- Unreachable on the source as written: both guards above fail, so
      -- no consistent semantics reaches the storage call.
      .ok rows
  match attempt with
  | .ok rows2 => (.success, rows2)
  | .error _ => (.errorJson 500, rows)

/-! ### JSON serialisation — `json.dumps` with its default options
(`ensure_ascii=True`, separators `", "` and `": "`), as invoked at
`main.py` line 126. -/

/-- Lowercase hexadecimal digit character, for `n < 16`. -/
def hexDigitChar (n : Nat) : Char :=
  if n < 10 then Char.ofNat (48 + n) else Char.ofNat (87 + n)

/-- The four hex digits of `n < 0x10000`, most significant first. -/
def hex4 (n : Nat) : List Char :=
  [hexDigitChar (n / 4096 % 16), hexDigitChar (n / 256 % 16),
   hexDigitChar (n / 16 % 16), hexDigitChar (n % 16)]

/-- A `\uXXXX` escape for `n < 0x10000`. -/
def uEscape (n : Nat) : List Char :=
  '\\' :: 'u' :: hex4 n

/-- How `json.dumps` with `ensure_ascii=True` renders one character of a
string: the two-character escapes for quote, backslash and the common
control characters; `\uXXXX` for the remaining control characters; ASCII
printable characters literally; `\uXXXX` for other characters of the basic
plane; and a surrogate pair of escapes for astral characters. -/
def escapeChar (c : Char) : List Char :=
  if c = '"' then ['\\', '"']
  else if c = '\\' then ['\\', '\\']
  else if c = '\n' then ['\\', 'n']
  else if c = '\r' then ['\\', 'r']
  else if c = '\t' then ['\\', 't']
  else if c.toNat = 8 then ['\\', 'b']
  else if c.toNat = 12 then ['\\', 'f']
  else if c.toNat < 32 then uEscape c.toNat
  else if c.toNat < 128 then [c]
  else if c.toNat < 65536 then uEscape c.toNat
  else uEscape (55296 + (c.toNat - 65536) / 1024) ++
       uEscape (56320 + (c.toNat - 65536) % 1024)

/-- A JSON string literal: quote, escaped characters, quote. -/
def dumpsString (s : String) : List Char :=
  '"' :: (s.data.flatMap escapeChar ++ ['"'])

/-- The value of a decimal digit character, `none` for anything else. -/
def digitVal (c : Char) : Option Nat :=
  if 48 ≤ c.toNat ∧ c.toNat ≤ 57 then some (c.toNat - 48) else none

/-- The character of a decimal digit `n < 10`. -/
def digitChar (n : Nat) : Char := Char.ofNat (48 + n)

/-- The decimal digits of a natural number, as Python's `str` renders
them. -/
def natDigits (n : Nat) : List Char :=
  if h : n < 10 then [digitChar n]
  else natDigits (n / 10) ++ [digitChar (n % 10)]
termination_by n
decreasing_by omega

/-- Python's `str` of an integer: an optional minus sign and the decimal
digits. -/
def intChars (n : Int) : List Char :=
  if n < 0 then '-' :: natDigits (-n).toNat else natDigits n.toNat

mutual

/-- `json.dumps` of a value, as a character list. -/
def dumpsChars : Json → List Char
  | .str s => dumpsString s
  | .int n => intChars n
  | .obj [] => ['{', '}']
  | .obj ((k, v) :: fs) =>
    '{' :: (dumpsString k ++ ':' :: ' ' :: dumpsChars v ++ dumpsMoreFields fs) ++ ['}']

/-- The `", "`-separated remaining members of an object. -/
def dumpsMoreFields : List (String × Json) → List Char
  | [] => []
  | (k, v) :: fs =>
    ',' :: ' ' :: (dumpsString k ++ ':' :: ' ' :: dumpsChars v ++ dumpsMoreFields fs)

end

/-- `json.dumps(chunk)`. -/
def dumps (j : Json) : String := ⟨dumpsChars j⟩

/-! ### A JSON parser, for the round-trip property -/

/-- The value of a hexadecimal digit character. -/
def hexVal (c : Char) : Option Nat :=
  if 48 ≤ c.toNat ∧ c.toNat ≤ 57 then some (c.toNat - 48)
  else if 97 ≤ c.toNat ∧ c.toNat ≤ 102 then some (c.toNat - 87)
  else if 65 ≤ c.toNat ∧ c.toNat ≤ 70 then some (c.toNat - 55)
  else none

/-- Four hex digits as a number. -/
def parseHex4 : List Char → Option (Nat × List Char)
  | a :: b :: c :: d :: rest =>
    match hexVal a, hexVal b, hexVal c, hexVal d with
    | some va, some vb, some vc, some vd =>
      some (4096 * va + 256 * vb + 16 * vc + vd, rest)
    | _, _, _, _ => none
  | _ => none

/-- The body of a `\uXXXX` escape: four hex digits, recombining a high
surrogate followed by a second escaped low surrogate into one character. -/
def parseEscapeU (l : List Char) : Option (Char × List Char) :=
  match parseHex4 l with
  | none => none
  | some (n, rest2) =>
    if 55296 ≤ n ∧ n ≤ 56319 then
      match rest2 with
      | '\\' :: 'u' :: rest3 =>
        match parseHex4 rest3 with
        | none => none
        | some (m, rest4) =>
          if 56320 ≤ m ∧ m ≤ 57343 then
            some (Char.ofNat (65536 + (n - 55296) * 1024 + (m - 56320)), rest4)
          else none
      | _ => none
    else if 56320 ≤ n ∧ n ≤ 57343 then none
    else some (Char.ofNat n, rest2)

/-- The character following a backslash inside a JSON string, including
`\uXXXX` escapes and surrogate-pair recombination. -/
def parseEscape : List Char → Option (Char × List Char)
  | '"' :: rest => some ('"', rest)
  | '\\' :: rest => some ('\\', rest)
  | '/' :: rest => some ('/', rest)
  | 'n' :: rest => some ('\n', rest)
  | 'r' :: rest => some ('\r', rest)
  | 't' :: rest => some ('\t', rest)
  | 'b' :: rest => some (Char.ofNat 8, rest)
  | 'f' :: rest => some (Char.ofNat 12, rest)
  | 'u' :: rest => parseEscapeU rest
  | _ => none

/-- String-body parser: consumes characters and escapes up to the closing
quote, returning the decoded characters and the remaining input. -/
def parseStringBody : Nat → List Char → Option (List Char × List Char)
  | 0, _ => none
  | _ + 1, [] => none
  | fuel + 1, c :: rest =>
    if c = '"' then some ([], rest)
    else if c = '\\' then
      match parseEscape rest with
      | none => none
      | some (d, rest2) =>
        match parseStringBody fuel rest2 with
        | none => none
        | some (ds, rest3) => some (d :: ds, rest3)
    else
      match parseStringBody fuel rest with
      | none => none
      | some (ds, rest2) => some (c :: ds, rest2)

/-- Whether the input begins with a decimal digit. -/
def headDigit : List Char → Bool
  | [] => false
  | c :: _ => (digitVal c).isSome

/-- Consume a run of decimal digits into an accumulator. -/
def parseDigits : List Char → Nat → Nat × List Char
  | [], acc => (acc, [])
  | c :: rest, acc =>
    match digitVal c with
    | some d => parseDigits rest (10 * acc + d)
    | none => (acc, c :: rest)

/-- Parse an optionally signed decimal integer. -/
def parseInt : List Char → Option (Int × List Char)
  | [] => none
  | c :: rest =>
    if c = '-' then
      if headDigit rest then
        let r := parseDigits rest 0
        some (-(r.1 : Int), r.2)
      else none
    else if (digitVal c).isSome then
      let r := parseDigits (c :: rest) 0
      some ((r.1 : Int), r.2)
    else none

/-- JSON insignificant whitespace. -/
def isWs (c : Char) : Bool :=
  c = ' ' || c = '\n' || c = '\t' || c = '\r'

/-- Skip insignificant whitespace. -/
def skipWs : List Char → List Char
  | [] => []
  | c :: rest => if isWs c then skipWs rest else c :: rest

mutual

/-- Parse one JSON value (string, integer or object — the grammar the
service's payloads use). -/
def parseValue : Nat → List Char → Option (Json × List Char)
  | 0, _ => none
  | fuel + 1, l =>
    match skipWs l with
    | [] => none
    | c :: rest =>
      if c = '"' then
        match parseStringBody (rest.length + 1) rest with
        | none => none
        | some (cs, rest2) => some (.str ⟨cs⟩, rest2)
      else if c = '{' then
        match skipWs rest with
        | [] => none
        | c2 :: rest2 =>
          if c2 = '}' then some (.obj [], rest2)
          else
            match parseMembers fuel (c2 :: rest2) with
            | none => none
            | some (fs, rest3) => some (.obj fs, rest3)
      else
        match parseInt (c :: rest) with
        | none => none
        | some (n, rest2) => some (.int n, rest2)

/-- Parse the nonempty member list of an object, consuming the closing
brace. -/
def parseMembers : Nat → List Char → Option (List (String × Json) × List Char)
  | 0, _ => none
  | fuel + 1, l =>
    match skipWs l with
    | [] => none
    | c :: rest =>
      if c = '"' then
        match parseStringBody (rest.length + 1) rest with
        | none => none
        | some (kcs, rest2) =>
          match skipWs rest2 with
          | [] => none
          | c2 :: rest3 =>
            if c2 = ':' then
              match parseValue fuel rest3 with
              | none => none
              | some (v, rest4) =>
                match skipWs rest4 with
                | [] => none
                | c3 :: rest5 =>
                  if c3 = ',' then
                    match parseMembers fuel rest5 with
                    | none => none
                    | some (fs, rest6) => some ((⟨kcs⟩, v) :: fs, rest6)
                  else if c3 = '}' then some ([(⟨kcs⟩, v)], rest5)
                  else none
            else none
      else none

end

/-- Parse a complete JSON document: one value and nothing but whitespace
after it. -/
def parseJson (s : String) : Option Json :=
  match parseValue (s.data.length + 1) s.data with
  | some (j, rest) => if skipWs rest = [] then some j else none
  | none => none

mutual

/-- Fuel adequate for parsing a dumped value: one unit per value and per
object member. -/
def jsonFuel : Json → Nat
  | .str _ => 1
  | .int _ => 1
  | .obj fs => 1 + fieldsFuel fs

/-- Fuel adequate for parsing a dumped member list. -/
def fieldsFuel : List (String × Json) → Nat
  | [] => 0
  | (_, v) :: fs => 1 + jsonFuel v + fieldsFuel fs

end

/-! ### SSE wire framing (`main.py` line 126) -/

/-- The wire text written for one chunk:
`yield f"data: \x7bjson.dumps(chunk)\x7d\n\n"`. -/
def sseWire (e : StreamEvent) : String :=
  "data: " ++ dumps e.toJson ++ "\n\n"

/-- Split a character stream into its physical lines. -/
def splitLines : List Char → List (List Char)
  | [] => [[]]
  | c :: rest =>
    match splitLines rest with
    | [] => [[c]]
    | l :: ls => if c = '\n' then [] :: l :: ls else (c :: l) :: ls

/-- The bodies of the `data:` field lines of a wire text, in order — what
an SSE consumer concatenates to recover the event payload. -/
def dataLineBodies (wire : List Char) : List (List Char) :=
  (splitLines wire).filterMap fun l =>
    if l.take 6 = "data: ".data then some (l.drop 6) else none

/-! ### Round-trip lemmas: characters and escapes -/

theorem string_mk_data (s : String) : (⟨s.data⟩ : String) = s := by
  cases s; rfl

theorem char_toNat_cases (c : Char) :
    c.toNat < 55296 ∨ (57343 < c.toNat ∧ c.toNat < 1114112) := by
  have h := c.valid
  rcases h with h | ⟨h1, h2⟩ <;> simp only [Char.toNat] <;> omega

theorem hexVal_hexDigitChar : ∀ n, n < 16 → hexVal (hexDigitChar n) = some n := by
  decide

theorem parseHex4_hex4 (n : Nat) (h : n < 65536) (rest : List Char) :
    parseHex4 (hex4 n ++ rest) = some (n, rest) := by
  have e1 := hexVal_hexDigitChar (n / 4096 % 16) (by omega)
  have e2 := hexVal_hexDigitChar (n / 256 % 16) (by omega)
  have e3 := hexVal_hexDigitChar (n / 16 % 16) (by omega)
  have e4 := hexVal_hexDigitChar (n % 16) (by omega)
  simp only [hex4, List.cons_append, List.nil_append, parseHex4, e1, e2, e3, e4]
  congr 1
  congr 1
  omega

theorem parseEscape_u (l : List Char) : parseEscape ('u' :: l) = parseEscapeU l := rfl

theorem parseEscapeU_nonsurrogate (l r : List Char) (n : Nat)
    (h : parseHex4 l = some (n, r))
    (h1 : ¬(55296 ≤ n ∧ n ≤ 56319)) (h2 : ¬(56320 ≤ n ∧ n ≤ 57343)) :
    parseEscapeU l = some (Char.ofNat n, r) := by
  unfold parseEscapeU
  simp only [h]
  rw [if_neg h1, if_neg h2]

theorem parseEscapeU_surrogate (l rest3 r4 : List Char) (n m : Nat)
    (h : parseHex4 l = some (n, '\\' :: 'u' :: rest3))
    (hn : 55296 ≤ n ∧ n ≤ 56319)
    (h2 : parseHex4 rest3 = some (m, r4))
    (hm : 56320 ≤ m ∧ m ≤ 57343) :
    parseEscapeU l = some (Char.ofNat (65536 + (n - 55296) * 1024 + (m - 56320)), r4) := by
  unfold parseEscapeU
  simp only [h]
  rw [if_pos hn]
  simp only [h2]
  rw [if_pos hm]

theorem parseEscape_escapeChar (c : Char) (rest : List Char) :
    (escapeChar c = [c] ∧ c ≠ '"' ∧ c ≠ '\\') ∨
    (∃ t, escapeChar c = '\\' :: t ∧ parseEscape (t ++ rest) = some (c, rest)) := by
  by_cases h1 : c = '"'
  · subst h1; exact Or.inr ⟨['"'], rfl, rfl⟩
  by_cases h2 : c = '\\'
  · subst h2; exact Or.inr ⟨['\\'], rfl, rfl⟩
  by_cases h3 : c = '\n'
  · subst h3; exact Or.inr ⟨['n'], by unfold escapeChar; rw [if_neg h1, if_neg h2, if_pos rfl], rfl⟩
  by_cases h4 : c = '\r'
  · subst h4
    exact Or.inr ⟨['r'],
      by unfold escapeChar; rw [if_neg h1, if_neg h2, if_neg h3, if_pos rfl], rfl⟩
  by_cases h5 : c = '\t'
  · subst h5
    exact Or.inr ⟨['t'],
      by unfold escapeChar; rw [if_neg h1, if_neg h2, if_neg h3, if_neg h4, if_pos rfl], rfl⟩
  by_cases h6 : c.toNat = 8
  · refine Or.inr ⟨['b'],
      by unfold escapeChar
         rw [if_neg h1, if_neg h2, if_neg h3, if_neg h4, if_neg h5, if_pos h6], ?_⟩
    have hc : Char.ofNat 8 = c := by rw [← h6]; exact Char.ofNat_toNat c
    have hb : parseEscape ('b' :: rest) = some (Char.ofNat 8, rest) := rfl
    rw [List.singleton_append, hb, hc]
  by_cases h7 : c.toNat = 12
  · refine Or.inr ⟨['f'],
      by unfold escapeChar
         rw [if_neg h1, if_neg h2, if_neg h3, if_neg h4, if_neg h5, if_neg h6, if_pos h7], ?_⟩
    have hc : Char.ofNat 12 = c := by rw [← h7]; exact Char.ofNat_toNat c
    have hb : parseEscape ('f' :: rest) = some (Char.ofNat 12, rest) := rfl
    rw [List.singleton_append, hb, hc]
  by_cases h8 : c.toNat < 32
  · refine Or.inr ⟨'u' :: hex4 c.toNat,
      by unfold escapeChar
         rw [if_neg h1, if_neg h2, if_neg h3, if_neg h4, if_neg h5, if_neg h6, if_neg h7,
           if_pos h8]
         rfl, ?_⟩
    rw [List.cons_append, parseEscape_u,
      parseEscapeU_nonsurrogate (hex4 c.toNat ++ rest) rest c.toNat
        (parseHex4_hex4 c.toNat (by omega) rest) (by omega) (by omega),
      Char.ofNat_toNat c]
  by_cases h9 : c.toNat < 128
  · refine Or.inl ⟨?_, h1, h2⟩
    unfold escapeChar
    rw [if_neg h1, if_neg h2, if_neg h3, if_neg h4, if_neg h5, if_neg h6, if_neg h7,
      if_neg h8, if_pos h9]
  by_cases h10 : c.toNat < 65536
  · refine Or.inr ⟨'u' :: hex4 c.toNat,
      by unfold escapeChar
         rw [if_neg h1, if_neg h2, if_neg h3, if_neg h4, if_neg h5, if_neg h6, if_neg h7,
           if_neg h8, if_neg h9, if_pos h10]
         rfl, ?_⟩
    have hv := char_toNat_cases c
    rw [List.cons_append, parseEscape_u,
      parseEscapeU_nonsurrogate (hex4 c.toNat ++ rest) rest c.toNat
        (parseHex4_hex4 c.toNat (by omega) rest) (by omega) (by omega),
      Char.ofNat_toNat c]
  · have hv := char_toNat_cases c
    have hle : c.toNat < 1114112 := by omega
    have hge : 65536 ≤ c.toNat := by omega
    refine Or.inr ⟨'u' :: hex4 (55296 + (c.toNat - 65536) / 1024) ++
      ('\\' :: 'u' :: hex4 (56320 + (c.toNat - 65536) % 1024)),
      by unfold escapeChar
         rw [if_neg h1, if_neg h2, if_neg h3, if_neg h4, if_neg h5, if_neg h6, if_neg h7,
           if_neg h8, if_neg h9, if_neg h10]
         simp [uEscape], ?_⟩
    have hshape : ('u' :: hex4 (55296 + (c.toNat - 65536) / 1024) ++
        ('\\' :: 'u' :: hex4 (56320 + (c.toNat - 65536) % 1024))) ++ rest =
        'u' :: (hex4 (55296 + (c.toNat - 65536) / 1024) ++
          ('\\' :: 'u' :: (hex4 (56320 + (c.toNat - 65536) % 1024) ++ rest))) := by
      simp
    rw [hshape, parseEscape_u,
      parseEscapeU_surrogate _ _ rest (55296 + (c.toNat - 65536) / 1024)
        (56320 + (c.toNat - 65536) % 1024)
        (parseHex4_hex4 (55296 + (c.toNat - 65536) / 1024) (by omega) _)
        (by omega)
        (parseHex4_hex4 (56320 + (c.toNat - 65536) % 1024) (by omega) rest)
        (by omega)]
    have harith : 65536 + (55296 + (c.toNat - 65536) / 1024 - 55296) * 1024 +
        (56320 + (c.toNat - 65536) % 1024 - 56320) = c.toNat := by omega
    rw [harith, Char.ofNat_toNat c]

theorem escapeChar_length_pos (c : Char) : 1 ≤ (escapeChar c).length := by
  rcases parseEscape_escapeChar c [] with ⟨h, -, -⟩ | ⟨t, h, -⟩ <;> rw [h] <;> simp

theorem length_le_flatMap_escape (cs : List Char) :
    cs.length ≤ (cs.flatMap escapeChar).length := by
  induction cs with
  | nil => simp
  | cons c cs ih =>
    simp only [List.flatMap_cons, List.length_append, List.length_cons]
    have := escapeChar_length_pos c
    omega

theorem parseStringBody_round (cs : List Char) : ∀ (fuel : Nat) (rest : List Char),
    cs.length + 1 ≤ fuel →
    parseStringBody fuel (cs.flatMap escapeChar ++ '"' :: rest) = some (cs, rest) := by
  induction cs with
  | nil =>
    intro fuel rest h
    obtain ⟨f, rfl⟩ : ∃ f, fuel = f + 1 := ⟨fuel - 1, by omega⟩
    simp [parseStringBody]
  | cons c cs ih =>
    intro fuel rest h
    obtain ⟨f, rfl⟩ : ∃ f, fuel = f + 1 := ⟨fuel - 1, by omega⟩
    rcases parseEscape_escapeChar c (cs.flatMap escapeChar ++ '"' :: rest) with
      ⟨h1, h2, h3⟩ | ⟨t, ht, hp⟩
    · have hshape : (c :: cs).flatMap escapeChar ++ '"' :: rest =
          c :: (cs.flatMap escapeChar ++ '"' :: rest) := by
        simp [List.flatMap_cons, h1]
      rw [hshape]
      simp only [parseStringBody]
      rw [if_neg h2, if_neg h3, ih f rest (by simp at h; omega)]
    · have hshape : (c :: cs).flatMap escapeChar ++ '"' :: rest =
          '\\' :: (t ++ (cs.flatMap escapeChar ++ '"' :: rest)) := by
        simp [List.flatMap_cons, ht]
      rw [hshape]
      simp only [parseStringBody]
      rw [if_neg (by decide : ¬('\\' = '"')), if_pos trivial]
      simp only [hp, ih f rest (by simp at h; omega)]

/-! ### Round-trip lemmas: integers -/

theorem digitVal_digitChar : ∀ n, n < 10 → digitVal (digitChar n) = some n := by
  decide

theorem digitChar_range : ∀ n, n < 10 →
    48 ≤ (digitChar n).toNat ∧ (digitChar n).toNat ≤ 57 := by
  decide

theorem natDigits_ne_nil (n : Nat) : natDigits n ≠ [] := by
  rw [natDigits]
  by_cases h : n < 10 <;> simp [h]

theorem natDigits_digits : ∀ n, ∀ c ∈ natDigits n, 48 ≤ c.toNat ∧ c.toNat ≤ 57 := by
  intro n
  induction n using Nat.strong_induction_on with
  | _ n ih =>
    intro c hc
    rw [natDigits] at hc
    by_cases h : n < 10
    · rw [dif_pos h] at hc
      simp only [List.mem_singleton] at hc
      subst hc
      exact digitChar_range n h
    · rw [dif_neg h] at hc
      rcases List.mem_append.mp hc with h2 | h2
      · exact ih (n / 10) (by omega) c h2
      · simp only [List.mem_singleton] at h2
        subst h2
        exact digitChar_range (n % 10) (by omega)

theorem digitVal_isSome_of_range (c : Char) (h1 : 48 ≤ c.toNat) (h2 : c.toNat ≤ 57) :
    (digitVal c).isSome = true := by
  simp [digitVal, h1, h2]

theorem parseDigits_stop (rest : List Char) (acc : Nat) (h : headDigit rest = false) :
    parseDigits rest acc = (acc, rest) := by
  cases rest with
  | nil => rfl
  | cons c r =>
    simp only [headDigit] at h
    cases hd : digitVal c with
    | none => simp [parseDigits, hd]
    | some d => rw [hd] at h; simp at h

theorem parseDigits_append (ds : List Char) : ∀ (rest : List Char) (acc : Nat),
    (∀ c ∈ ds, (digitVal c).isSome = true) →
    parseDigits (ds ++ rest) acc =
      parseDigits rest (List.foldl (fun a c => 10 * a + ((digitVal c).getD 0)) acc ds) := by
  induction ds with
  | nil => simp
  | cons c ds ih =>
    intro rest acc hall
    have hc := hall c (by simp)
    obtain ⟨d, hd⟩ := Option.isSome_iff_exists.mp hc
    rw [List.cons_append]
    rw [show parseDigits (c :: (ds ++ rest)) acc = parseDigits (ds ++ rest) (10 * acc + d)
      from by simp [parseDigits, hd]]
    rw [ih rest (10 * acc + d) (fun x hx => hall x (by simp [hx]))]
    rw [List.foldl_cons]
    congr 1
    simp [hd]

theorem natDigits_foldl : ∀ n acc,
    List.foldl (fun a c => 10 * a + ((digitVal c).getD 0)) acc (natDigits n) =
      acc * 10 ^ (natDigits n).length + n := by
  intro n
  induction n using Nat.strong_induction_on with
  | _ n ih =>
    intro acc
    rw [natDigits]
    by_cases h : n < 10
    · rw [dif_pos h]
      simp [digitVal_digitChar n h]
      omega
    · rw [dif_neg h]
      rw [List.foldl_append, ih (n / 10) (by omega) acc]
      simp only [List.foldl_cons, List.foldl_nil, List.length_append,
        List.length_singleton]
      rw [digitVal_digitChar (n % 10) (by omega)]
      simp only [Option.getD_some]
      rw [pow_succ, ← Nat.mul_assoc]
      generalize acc * 10 ^ (natDigits (n / 10)).length = Q
      omega

theorem natDigits_shape (n : Nat) :
    ∃ d ds, natDigits n = d :: ds ∧ 48 ≤ d.toNat ∧ d.toNat ≤ 57 := by
  cases hd : natDigits n with
  | nil => exact absurd hd (natDigits_ne_nil n)
  | cons d ds =>
    have := natDigits_digits n d (by rw [hd]; simp)
    exact ⟨d, ds, rfl, this.1, this.2⟩

theorem natDigits_all_some (n : Nat) :
    ∀ c ∈ natDigits n, (digitVal c).isSome = true := by
  intro c hc
  have h := natDigits_digits n c hc
  exact digitVal_isSome_of_range c h.1 h.2

theorem parseDigits_natDigits (n : Nat) (rest : List Char) (h : headDigit rest = false) :
    parseDigits (natDigits n ++ rest) 0 = (n, rest) := by
  rw [parseDigits_append (natDigits n) rest 0 (natDigits_all_some n),
    natDigits_foldl n 0, parseDigits_stop rest _ h]
  simp

theorem parseInt_intChars (n : Int) (rest : List Char) (h : headDigit rest = false) :
    parseInt (intChars n ++ rest) = some (n, rest) := by
  by_cases hn : n < 0
  · have hsh : intChars n ++ rest = '-' :: (natDigits (-n).toNat ++ rest) := by
      simp [intChars, hn]
    rw [hsh]
    obtain ⟨d, ds, hds, hd1, hd2⟩ := natDigits_shape (-n).toNat
    have hhead : headDigit (natDigits (-n).toNat ++ rest) = true := by
      rw [hds]
      simp only [List.cons_append, headDigit]
      exact digitVal_isSome_of_range d hd1 hd2
    simp only [parseInt]
    rw [if_pos trivial, if_pos hhead, parseDigits_natDigits (-n).toNat rest h]
    have : (((-n).toNat : ℤ)) = -n := Int.toNat_of_nonneg (by omega)
    simp only [this]
    congr 1
    congr 1
    omega
  · have hsh : intChars n ++ rest = natDigits n.toNat ++ rest := by
      simp [intChars, hn]
    rw [hsh]
    obtain ⟨d, ds, hds, hd1, hd2⟩ := natDigits_shape n.toNat
    rw [hds, List.cons_append]
    have hdm : d ≠ '-' := by
      intro hc
      subst hc
      revert hd1
      decide
    simp only [parseInt]
    rw [if_neg hdm, if_pos (digitVal_isSome_of_range d hd1 hd2)]
    rw [← List.cons_append, ← hds, parseDigits_natDigits n.toNat rest h]
    have : ((n.toNat : ℤ)) = n := Int.toNat_of_nonneg (by omega)
    simp [this]

/-! ### Round-trip lemmas: whitespace and top-level values -/

theorem skipWs_not_ws (c : Char) (l : List Char) (h : isWs c = false) :
    skipWs (c :: l) = c :: l := by
  simp [skipWs, h]

theorem skipWs_ws (c : Char) (l : List Char) (h : isWs c = true) :
    skipWs (c :: l) = skipWs l := by
  simp [skipWs, h]

theorem isWs_false_of_ge (c : Char) (h : 33 ≤ c.toNat) : isWs c = false := by
  have h1 : c ≠ ' ' := by rintro rfl; revert h; decide
  have h2 : c ≠ '\n' := by rintro rfl; revert h; decide
  have h3 : c ≠ '\t' := by rintro rfl; revert h; decide
  have h4 : c ≠ '\r' := by rintro rfl; revert h; decide
  simp [isWs, h1, h2, h3, h4]

theorem parseValue_skip_space (fuel : Nat) (l : List Char) :
    parseValue fuel (' ' :: l) = parseValue fuel l := by
  cases fuel with
  | zero => rfl
  | succ f =>
    simp only [parseValue]
    rw [skipWs_ws ' ' l (by decide)]

theorem parseMembers_skip_space (fuel : Nat) (l : List Char) :
    parseMembers fuel (' ' :: l) = parseMembers fuel l := by
  cases fuel with
  | zero => rfl
  | succ f =>
    simp only [parseMembers]
    rw [skipWs_ws ' ' l (by decide)]

theorem intChars_shape (n : Int) :
    ∃ d ds, intChars n = d :: ds ∧ (d = '-' ∨ (48 ≤ d.toNat ∧ d.toNat ≤ 57)) := by
  by_cases hn : n < 0
  · exact ⟨'-', natDigits (-n).toNat, by simp [intChars, hn], Or.inl rfl⟩
  · obtain ⟨d, ds, hds, h1, h2⟩ := natDigits_shape n.toNat
    exact ⟨d, ds, by simp [intChars, hn, hds], Or.inr ⟨h1, h2⟩⟩

theorem jsonFuel_pos (j : Json) : 1 ≤ jsonFuel j := by
  cases j <;> simp [jsonFuel]

theorem parse_round_aux (fuel : Nat) :
    (∀ (j : Json) (rest : List Char), jsonFuel j ≤ fuel → headDigit rest = false →
      parseValue fuel (dumpsChars j ++ rest) = some (j, rest)) ∧
    (∀ (k : String) (v : Json) (fs : List (String × Json)) (rest : List Char),
      fieldsFuel ((k, v) :: fs) ≤ fuel →
      parseMembers fuel
        (dumpsString k ++ ':' :: ' ' ::
          (dumpsChars v ++ (dumpsMoreFields fs ++ '}' :: rest))) =
        some ((k, v) :: fs, rest)) := by
  induction fuel using Nat.strong_induction_on with
  | _ fuel ih =>
    constructor
    · intro j rest hfuel hrest
      obtain ⟨f, rfl⟩ : ∃ f, fuel = f + 1 := ⟨fuel - 1, by have := jsonFuel_pos j; omega⟩
      cases j with
      | str s =>
        have hshape : dumpsChars (.str s) ++ rest =
            '"' :: (s.data.flatMap escapeChar ++ ('"' :: rest)) := by
          simp [dumpsChars, dumpsString]
        have hlen : s.data.length + 1 ≤
            (s.data.flatMap escapeChar ++ ('"' :: rest)).length + 1 := by
          have := length_le_flatMap_escape s.data
          simp only [List.length_append]
          omega
        have hbody := parseStringBody_round s.data
          ((s.data.flatMap escapeChar ++ ('"' :: rest)).length + 1) rest hlen
        rw [hshape]
        simp only [parseValue,
          skipWs_not_ws '"' (s.data.flatMap escapeChar ++ ('"' :: rest)) (by decide),
          hbody, string_mk_data, if_true, eq_self_iff_true]
      | int n =>
        obtain ⟨d, ds, hds, hd⟩ := intChars_shape n
        have hne1 : d ≠ '"' := by
          rcases hd with rfl | ⟨h1, h2⟩
          · decide
          · intro hc; subst hc; revert h1; decide
        have hne2 : d ≠ '{' := by
          rcases hd with rfl | ⟨h1, h2⟩
          · decide
          · intro hc; subst hc; revert h2; decide
        have hnws : isWs d = false := by
          refine isWs_false_of_ge d ?_
          rcases hd with rfl | ⟨h1, h2⟩
          · decide
          · omega
        have hshape : dumpsChars (.int n) ++ rest = d :: (ds ++ rest) := by
          simp [dumpsChars, hds]
        have hint : parseInt (d :: (ds ++ rest)) = some (n, rest) := by
          rw [← List.cons_append, ← hds]
          exact parseInt_intChars n rest hrest
        rw [hshape]
        simp only [parseValue, skipWs_not_ws d (ds ++ rest) hnws, if_neg hne1,
          if_neg hne2, hint]
      | obj fs =>
        cases fs with
        | nil =>
          have hshape : dumpsChars (.obj []) ++ rest = '{' :: ('}' :: rest) := by
            simp [dumpsChars]
          rw [hshape]
          simp only [parseValue, skipWs_not_ws '{' ('}' :: rest) (by decide),
            skipWs_not_ws '}' rest (by decide),
            if_neg (by decide : ¬('{' = '"')), if_pos rfl, if_true, eq_self_iff_true]
        | cons kv fs' =>
          obtain ⟨k, v⟩ := kv
          have hshape : dumpsChars (.obj ((k, v) :: fs')) ++ rest =
              '{' :: (dumpsString k ++ ':' :: ' ' ::
                (dumpsChars v ++ (dumpsMoreFields fs' ++ '}' :: rest))) := by
            simp [dumpsChars, dumpsString]
          have hks : dumpsString k ++ ':' :: ' ' ::
              (dumpsChars v ++ (dumpsMoreFields fs' ++ '}' :: rest)) =
              '"' :: (k.data.flatMap escapeChar ++
                ('"' :: (':' :: ' ' ::
                  (dumpsChars v ++ (dumpsMoreFields fs' ++ '}' :: rest))))) := by
            simp [dumpsString]
          have hmem := (ih f (by omega)).2 k v fs' rest
            (by simp only [jsonFuel] at hfuel; omega)
          rw [hshape]
          simp only [parseValue,
            skipWs_not_ws '{' _ (by decide)]
          rw [hks]
          simp only [skipWs_not_ws '"' _ (by decide),
            if_neg (by decide : ¬('{' = '"')), if_pos rfl,
            if_neg (by decide : ¬('"' = '}')), if_true, eq_self_iff_true]
          rw [← hks, hmem]
    · intro k v fs rest hfuel
      obtain ⟨f, rfl⟩ : ∃ f, fuel = f + 1 := ⟨fuel - 1, by simp [fieldsFuel] at hfuel; omega⟩
      have hks : dumpsString k ++ ':' :: ' ' ::
          (dumpsChars v ++ (dumpsMoreFields fs ++ '}' :: rest)) =
          '"' :: (k.data.flatMap escapeChar ++
            ('"' :: (':' :: ' ' ::
              (dumpsChars v ++ (dumpsMoreFields fs ++ '}' :: rest))))) := by
        simp [dumpsString]
      have hlen : k.data.length + 1 ≤
          (k.data.flatMap escapeChar ++
            ('"' :: (':' :: ' ' ::
              (dumpsChars v ++ (dumpsMoreFields fs ++ '}' :: rest))))).length + 1 := by
        have := length_le_flatMap_escape k.data
        simp only [List.length_append]
        omega
      have hbody := parseStringBody_round k.data
        ((k.data.flatMap escapeChar ++
          ('"' :: (':' :: ' ' ::
            (dumpsChars v ++ (dumpsMoreFields fs ++ '}' :: rest))))).length + 1)
        (':' :: ' ' :: (dumpsChars v ++ (dumpsMoreFields fs ++ '}' :: rest))) hlen
      have hrest4 : headDigit (dumpsMoreFields fs ++ '}' :: rest) = false := by
        cases fs with
        | nil => simp [dumpsMoreFields, headDigit, digitVal]
        | cons kv2 fs2 =>
          obtain ⟨k2, v2⟩ := kv2
          simp [dumpsMoreFields, headDigit, digitVal]
      have hval := (ih f (by omega)).1 v (dumpsMoreFields fs ++ '}' :: rest)
        (by simp only [fieldsFuel] at hfuel; omega) hrest4
      rw [hks]
      simp only [parseMembers, skipWs_not_ws '"' _ (by decide), hbody,
        if_pos rfl, skipWs_not_ws ':' _ (by decide), if_true, eq_self_iff_true]
      rw [show parseValue f
          (' ' :: (dumpsChars v ++ (dumpsMoreFields fs ++ '}' :: rest))) =
          parseValue f (dumpsChars v ++ (dumpsMoreFields fs ++ '}' :: rest))
        from parseValue_skip_space f _]
      simp only [hval]
      cases fs with
      | nil =>
        simp only [dumpsMoreFields, List.nil_append,
          skipWs_not_ws '}' rest (by decide),
          if_neg (by decide : ¬('}' = ',')), if_pos rfl, string_mk_data, if_true,
          eq_self_iff_true]
      | cons kv2 fs2 =>
        obtain ⟨k2, v2⟩ := kv2
        have hmore : dumpsMoreFields ((k2, v2) :: fs2) ++ '}' :: rest =
            ',' :: ' ' :: (dumpsString k2 ++ ':' :: ' ' ::
              (dumpsChars v2 ++ (dumpsMoreFields fs2 ++ '}' :: rest))) := by
          simp [dumpsMoreFields]
        have hmem2 := (ih f (by omega)).2 k2 v2 fs2 rest
          (by simp only [fieldsFuel] at hfuel ⊢; omega)
        rw [hmore]
        simp only [skipWs_not_ws ',' _ (by decide), if_pos rfl, if_true, eq_self_iff_true]
        rw [show parseMembers f
            (' ' :: (dumpsString k2 ++ ':' :: ' ' ::
              (dumpsChars v2 ++ (dumpsMoreFields fs2 ++ '}' :: rest)))) =
            parseMembers f (dumpsString k2 ++ ':' :: ' ' ::
              (dumpsChars v2 ++ (dumpsMoreFields fs2 ++ '}' :: rest)))
          from parseMembers_skip_space f _]
        simp only [hmem2, string_mk_data]

theorem dumpsChars_len_aux (N : Nat) :
    (∀ j : Json, jsonFuel j ≤ N → jsonFuel j ≤ (dumpsChars j).length) ∧
    (∀ fs : List (String × Json),
      fieldsFuel fs ≤ N → fieldsFuel fs ≤ (dumpsMoreFields fs).length) := by
  induction N using Nat.strong_induction_on with
  | _ N ih =>
    constructor
    · intro j hj
      cases j with
      | str s => simp [jsonFuel, dumpsChars, dumpsString]
      | int n =>
        obtain ⟨d, ds, hds, -⟩ := intChars_shape n
        simp [jsonFuel, dumpsChars, hds]
      | obj fs =>
        cases fs with
        | nil => simp [jsonFuel, fieldsFuel, dumpsChars]
        | cons kv fs' =>
          obtain ⟨k, v⟩ := kv
          have hjv : jsonFuel v < N := by
            simp only [jsonFuel, fieldsFuel] at hj
            omega
          have hff : fieldsFuel fs' < N := by
            simp only [jsonFuel, fieldsFuel] at hj
            omega
          have h1 := (ih (jsonFuel v) hjv).1 v le_rfl
          have h2 := (ih (fieldsFuel fs') hff).2 fs' le_rfl
          simp only [jsonFuel, fieldsFuel, dumpsChars, dumpsString, List.length_append,
            List.length_cons, List.length_singleton]
          omega
    · intro fs hfs
      cases fs with
      | nil => simp [fieldsFuel, dumpsMoreFields]
      | cons kv fs' =>
        obtain ⟨k, v⟩ := kv
        have hjv : jsonFuel v < N := by
          simp only [fieldsFuel] at hfs
          omega
        have hff : fieldsFuel fs' < N := by
          simp only [fieldsFuel] at hfs
          omega
        have h1 := (ih (jsonFuel v) hjv).1 v le_rfl
        have h2 := (ih (fieldsFuel fs') hff).2 fs' le_rfl
        simp only [fieldsFuel, dumpsMoreFields, dumpsString, List.length_append,
          List.length_cons, List.length_singleton]
        omega

theorem jsonFuel_le_length (j : Json) : jsonFuel j ≤ (dumpsChars j).length :=
  (dumpsChars_len_aux (jsonFuel j)).1 j le_rfl

/-- The JSON round trip: parsing the dumped text of any payload recovers
the payload exactly. -/
theorem parseJson_dumps (j : Json) : parseJson (dumps j) = some j := by
  unfold parseJson dumps
  have hdata : (⟨dumpsChars j⟩ : String).data = dumpsChars j := rfl
  rw [hdata]
  have h := (parse_round_aux ((dumpsChars j).length + 1)).1 j []
    (by have := jsonFuel_le_length j; omega) rfl
  rw [List.append_nil] at h
  simp [h, skipWs]

/-! ### The dumped text is printable ASCII on a single line -/

theorem hexDigitChar_printable : ∀ n, n < 16 →
    32 ≤ (hexDigitChar n).toNat ∧ (hexDigitChar n).toNat ≤ 127 := by
  decide

theorem uEscape_printable (n : Nat) :
    ∀ d ∈ uEscape n, 32 ≤ d.toNat ∧ d.toNat ≤ 127 := by
  intro d hd
  simp only [uEscape, hex4, List.mem_cons, List.mem_singleton] at hd
  rcases hd with rfl | rfl | rfl | rfl | rfl | rfl | h
  · decide
  · decide
  · exact hexDigitChar_printable _ (by omega)
  · exact hexDigitChar_printable _ (by omega)
  · exact hexDigitChar_printable _ (by omega)
  · exact hexDigitChar_printable _ (by omega)
  · simp at h

theorem escapeChar_printable (c : Char) :
    ∀ d ∈ escapeChar c, 32 ≤ d.toNat ∧ d.toNat ≤ 127 := by
  by_cases h1 : c = '"'
  · subst h1
    rw [show escapeChar '"' = ['\\', '"'] from rfl]
    decide
  by_cases h2 : c = '\\'
  · subst h2
    rw [show escapeChar '\\' = ['\\', '\\'] from rfl]
    decide
  by_cases h3 : c = '\n'
  · subst h3
    rw [show escapeChar '\n' = ['\\', 'n'] from rfl]
    decide
  by_cases h4 : c = '\r'
  · subst h4
    rw [show escapeChar '\r' = ['\\', 'r'] from rfl]
    decide
  by_cases h5 : c = '\t'
  · subst h5
    rw [show escapeChar '\t' = ['\\', 't'] from rfl]
    decide
  by_cases h6 : c.toNat = 8
  · rw [show escapeChar c = ['\\', 'b'] from by
      unfold escapeChar
      rw [if_neg h1, if_neg h2, if_neg h3, if_neg h4, if_neg h5, if_pos h6]]
    decide
  by_cases h7 : c.toNat = 12
  · rw [show escapeChar c = ['\\', 'f'] from by
      unfold escapeChar
      rw [if_neg h1, if_neg h2, if_neg h3, if_neg h4, if_neg h5, if_neg h6, if_pos h7]]
    decide
  by_cases h8 : c.toNat < 32
  · rw [show escapeChar c = uEscape c.toNat from by
      unfold escapeChar
      rw [if_neg h1, if_neg h2, if_neg h3, if_neg h4, if_neg h5, if_neg h6, if_neg h7,
        if_pos h8]]
    exact uEscape_printable c.toNat
  by_cases h9 : c.toNat < 128
  · rw [show escapeChar c = [c] from by
      unfold escapeChar
      rw [if_neg h1, if_neg h2, if_neg h3, if_neg h4, if_neg h5, if_neg h6, if_neg h7,
        if_neg h8, if_pos h9]]
    simp only [List.forall_mem_singleton]
    omega
  by_cases h10 : c.toNat < 65536
  · rw [show escapeChar c = uEscape c.toNat from by
      unfold escapeChar
      rw [if_neg h1, if_neg h2, if_neg h3, if_neg h4, if_neg h5, if_neg h6, if_neg h7,
        if_neg h8, if_neg h9, if_pos h10]]
    exact uEscape_printable c.toNat
  · rw [show escapeChar c = uEscape (55296 + (c.toNat - 65536) / 1024) ++
        uEscape (56320 + (c.toNat - 65536) % 1024) from by
      unfold escapeChar
      rw [if_neg h1, if_neg h2, if_neg h3, if_neg h4, if_neg h5, if_neg h6, if_neg h7,
        if_neg h8, if_neg h9, if_neg h10]]
    rw [List.forall_mem_append]
    exact ⟨uEscape_printable _, uEscape_printable _⟩

theorem dumpsString_printable (s : String) :
    ∀ c ∈ dumpsString s, 32 ≤ c.toNat ∧ c.toNat ≤ 127 := by
  unfold dumpsString
  simp only [List.forall_mem_cons, List.forall_mem_append, List.forall_mem_singleton]
  refine ⟨by decide, ?_, by decide⟩
  intro c hc
  obtain ⟨a, -, ha⟩ := List.mem_flatMap.mp hc
  exact escapeChar_printable a c ha

theorem intChars_printable (n : Int) :
    ∀ c ∈ intChars n, 32 ≤ c.toNat ∧ c.toNat ≤ 127 := by
  unfold intChars
  by_cases hn : n < 0
  · rw [if_pos hn]
    simp only [List.forall_mem_cons]
    refine ⟨by decide, ?_⟩
    intro c hc
    have := natDigits_digits (-n).toNat c hc
    omega
  · rw [if_neg hn]
    intro c hc
    have := natDigits_digits n.toNat c hc
    omega

theorem dumpsChars_printable_aux (N : Nat) :
    (∀ j : Json, jsonFuel j ≤ N →
      ∀ c ∈ dumpsChars j, 32 ≤ c.toNat ∧ c.toNat ≤ 127) ∧
    (∀ fs : List (String × Json), fieldsFuel fs ≤ N →
      ∀ c ∈ dumpsMoreFields fs, 32 ≤ c.toNat ∧ c.toNat ≤ 127) := by
  induction N using Nat.strong_induction_on with
  | _ N ih =>
    constructor
    · intro j hj
      cases j with
      | str s =>
        rw [show dumpsChars (.str s) = dumpsString s from by simp [dumpsChars]]
        exact dumpsString_printable s
      | int n =>
        rw [show dumpsChars (.int n) = intChars n from by simp [dumpsChars]]
        exact intChars_printable n
      | obj fs =>
        cases fs with
        | nil =>
          rw [show dumpsChars (.obj []) = ['{', '}'] from by simp [dumpsChars]]
          decide
        | cons kv fs' =>
          obtain ⟨k, v⟩ := kv
          have hjv : jsonFuel v < N := by
            simp only [jsonFuel, fieldsFuel] at hj
            omega
          have hff : fieldsFuel fs' < N := by
            simp only [jsonFuel, fieldsFuel] at hj
            omega
          rw [show dumpsChars (.obj ((k, v) :: fs')) =
              '{' :: ((dumpsString k ++ ':' :: ' ' :: dumpsChars v ++
                dumpsMoreFields fs') ++ ['}']) from by simp [dumpsChars]]
          simp only [List.forall_mem_cons, List.forall_mem_append,
            List.forall_mem_singleton]
          repeat' apply And.intro
          all_goals first
            | decide
            | exact dumpsString_printable k
            | exact (ih (jsonFuel v) hjv).1 v le_rfl
            | exact (ih (fieldsFuel fs') hff).2 fs' le_rfl
    · intro fs hfs
      cases fs with
      | nil => simp [dumpsMoreFields]
      | cons kv fs' =>
        obtain ⟨k, v⟩ := kv
        have hjv : jsonFuel v < N := by
          simp only [fieldsFuel] at hfs
          omega
        have hff : fieldsFuel fs' < N := by
          simp only [fieldsFuel] at hfs
          omega
        rw [show dumpsMoreFields ((k, v) :: fs') =
            ',' :: ' ' :: (dumpsString k ++ ':' :: ' ' :: dumpsChars v ++
              dumpsMoreFields fs') from by simp [dumpsMoreFields]]
        simp only [List.forall_mem_cons, List.forall_mem_append,
          List.forall_mem_singleton]
        repeat' apply And.intro
        all_goals first
          | decide
          | exact dumpsString_printable k
          | exact (ih (jsonFuel v) hjv).1 v le_rfl
          | exact (ih (fieldsFuel fs') hff).2 fs' le_rfl

theorem dumpsChars_printable (j : Json) :
    ∀ c ∈ dumpsChars j, 32 ≤ c.toNat ∧ c.toNat ≤ 127 :=
  (dumpsChars_printable_aux (jsonFuel j)).1 j le_rfl

/-! ### Line structure of the wire text -/

theorem splitLines_ne_nil (l : List Char) : splitLines l ≠ [] := by
  cases l with
  | nil => simp [splitLines]
  | cons c rest =>
    rcases h : splitLines rest with _ | ⟨x, xs⟩ <;> simp [splitLines, h] <;> split_ifs <;>
      simp

theorem splitLines_no_nl (xs : List Char) : ∀ (ys : List Char),
    (∀ c ∈ xs, c ≠ '\n') →
    splitLines (xs ++ '\n' :: ys) = xs :: splitLines ys := by
  induction xs with
  | nil =>
    intro ys h
    rcases hsp : splitLines ys with _ | ⟨x, ls⟩
    · exact absurd hsp (splitLines_ne_nil ys)
    · simp [splitLines, hsp]
  | cons c xs ihx =>
    intro ys h
    have hc : c ≠ '\n' := h c (by simp)
    have hrest : ∀ x ∈ xs, x ≠ '\n' := fun x hx => h x (by simp [hx])
    simp only [List.cons_append, splitLines, List.append_eq, ihx ys hrest]
    rw [if_neg hc]

theorem sseWire_data (e : StreamEvent) :
    (sseWire e).data = ("data: ".data ++ dumpsChars e.toJson) ++ '\n' :: ('\n' :: []) := by
  show ("data: " ++ dumps e.toJson ++ "\n\n").data = _
  rw [show ("data: " ++ dumps e.toJson ++ "\n\n").data =
    "data: ".data ++ ((dumps e.toJson).data ++ "\n\n".data) from rfl]
  rw [show (dumps e.toJson).data = dumpsChars e.toJson from rfl]
  rw [show ("\n\n").data = ['\n', '\n'] from rfl]
  simp [List.append_assoc]

theorem wire_line_no_nl (e : StreamEvent) :
    ∀ c ∈ "data: ".data ++ dumpsChars e.toJson, c ≠ '\n' := by
  rw [List.forall_mem_append]
  constructor
  · decide
  · intro c hc
    have h := dumpsChars_printable e.toJson c hc
    intro hcn
    subst hcn
    revert h
    decide

theorem splitLines_sseWire (e : StreamEvent) :
    splitLines (sseWire e).data = [("data: ".data ++ dumpsChars e.toJson), [], []] := by
  rw [sseWire_data e, splitLines_no_nl _ ('\n' :: []) (wire_line_no_nl e)]
  rfl

theorem dataLineBodies_sseWire (e : StreamEvent) :
    dataLineBodies (sseWire e).data = [dumpsChars e.toJson] := by
  have ht : ("data: ".data ++ dumpsChars e.toJson).take 6 = "data: ".data :=
    List.take_left' rfl
  have hd : ("data: ".data ++ dumpsChars e.toJson).drop 6 = dumpsChars e.toJson :=
    List.drop_left' rfl
  rw [dataLineBodies, splitLines_sseWire e]
  simp [ht, hd]

/-! ### Event-sequence shapes -/

/-- The lifecycle shape claimed for an emitted event sequence: zero or more
`message` events followed by exactly one terminal (`end` or `error`) event,
with nothing after it. -/
def terminalShaped (evs : List StreamEvent) : Prop :=
  ∃ ms t, evs = ms ++ [t] ∧ (∀ m ∈ ms, m.event = "message") ∧ t.isTerminal

/-! ### Concrete fixtures used by witnesses and counterexamples -/

/-- A model client that yields one chunk and completes. -/
def demoLlm : ModelClient := ⟨fun _ => (["Hello"], .completed)⟩

/-- The empty conversation store. -/
def emptyStore : ConvStore := fun _ => none

/-- A valid chat request with the identifiers of `src/test_message.py`. -/
def demoReq : ChatRequest :=
  { messages := [{ role := "user", content := "hi" }]
    model := none
    stream := some true
    user_id := "2d372ddb-7cb6-46a9-8897-bdbc594ff37d"
    conversation_id := "99f08a62-7fec-4563-9b53-80471ed0a2a3" }

/-- The upsert request of `src/test_upsert.py`. -/
def demoUpsertReq : DocumentUpsertRequest :=
  { documents := [{ id := "test_000", text := "PUT YOUR KNOWLEDGE HERE"
                    metadata := [("timestamp", .str "2025-02-13")] }]
    conversation_id := "5b4332bb-12df-4173-9186-d63f6586ca40" }

/-! ### Helper lemmas about the streaming loop -/

/-- Starting the chunk loop at the baseline keeps every `message` event at
the baseline retry hint and leaves the final `retry_timeout` at the
baseline. -/
theorem chunkLoop_baseline (cid model : String) (b : Int) (cs : List String) :
    chunkLoop cid model b cs b = (cs.map fun c => messageEvent c cid model b, b) := by
  induction cs with
  | nil => rfl
  | cons c cs ih => simp [chunkLoop, ih]

/-- Every event the chunk loop emits is a `message` event. -/
theorem chunkLoop_events_message (cid model : String) (b : Int) :
    ∀ (cs : List String) (rt : Int) (e : StreamEvent),
      e ∈ (chunkLoop cid model b cs rt).1 → e.event = "message" := by
  intro cs
  induction cs with
  | nil => intro rt e h; simp [chunkLoop] at h
  | cons c cs ih =>
    intro rt e h
    simp only [chunkLoop, List.mem_cons] at h
    rcases h with h | h
    · subst h; rfl
    · exact ih b e h

/-- `generate_stream` on an initialised service with a nonempty message
list whose model stream completes normally. -/
theorem generate_stream_completed (stg : AppSettings) (llm : ModelClient)
    (msgs : List ChatMessage) (cid : String) (cs : List String)
    (hne : msgs ≠ [])
    (hrun : llm.astream (translateMessages msgs) = (cs, .completed)) :
    generate_stream stg true llm msgs cid =
      { events := (cs.map fun c => messageEvent c cid stg.llm_model stg.request_timeout) ++
          [endEvent cid stg.request_timeout]
        raised := none
        modelInput := some (translateMessages msgs) } := by
  unfold generate_stream
  have hemp : msgs.isEmpty = false := by
    cases msgs with
    | nil => exact absurd rfl hne
    | cons a l => rfl
  simp [hemp, hrun, chunkLoop_baseline]

/-- `generate_stream` on an initialised service with a nonempty message
list whose model stream raises `httpx.ReadTimeout` after its chunks. -/
theorem generate_stream_timeout (stg : AppSettings) (llm : ModelClient)
    (msgs : List ChatMessage) (cid : String) (cs : List String)
    (hne : msgs ≠ [])
    (hrun : llm.astream (translateMessages msgs) = (cs, .readTimeout)) :
    generate_stream stg true llm msgs cid =
      { events := (cs.map fun c => messageEvent c cid stg.llm_model stg.request_timeout) ++
          [errorEvent "stream_timeout" (calculate_retry_timeout stg.request_timeout)]
        raised := some "Stream timeout"
        modelInput := some (translateMessages msgs) } := by
  unfold generate_stream
  have hemp : msgs.isEmpty = false := by
    cases msgs with
    | nil => exact absurd rfl hne
    | cons a l => rfl
  simp [hemp, hrun, chunkLoop_baseline]

/-- `generate_stream` on an initialised service with a nonempty message
list whose model stream raises some non-timeout exception after its
chunks. -/
theorem generate_stream_failure (stg : AppSettings) (llm : ModelClient)
    (msgs : List ChatMessage) (cid : String) (cs : List String)
    (hne : msgs ≠ [])
    (hrun : llm.astream (translateMessages msgs) = (cs, .failure)) :
    generate_stream stg true llm msgs cid =
      { events := (cs.map fun c => messageEvent c cid stg.llm_model stg.request_timeout) ++
          [errorEvent "stream_failure" (calculate_retry_timeout stg.request_timeout)]
        raised := some "Stream terminated"
        modelInput := some (translateMessages msgs) } := by
  unfold generate_stream
  have hemp : msgs.isEmpty = false := by
    cases msgs with
    | nil => exact absurd rfl hne
    | cons a l => rfl
  simp [hemp, hrun, chunkLoop_baseline]

/-- `message` events are neither `end` nor `error` events, so filtering the
chunk-loop output for a terminal event type yields nothing. -/
theorem filter_message_events (cid model : String) (b : Int) (cs : List String)
    (p : String) (hp : p ≠ "message") :
    ((cs.map fun c => messageEvent c cid model b).filter fun e => e.event = p) = [] := by
  induction cs with
  | nil => rfl
  | cons c cs ih =>
    simp only [List.map_cons, List.filter_cons]
    have : ¬ ((messageEvent c cid model b).event = p) := fun h => hp (h.symm)
    simp [this, ih]

/-- Collecting the response from a completed stream recovers exactly the
model chunks, in order. -/
theorem collectResponse_completed (cid model : String) (b rt : Int) (cs : List String) :
    collectResponse ((cs.map fun c => messageEvent c cid model b) ++ [endEvent cid rt]) = cs := by
  unfold collectResponse
  induction cs with
  | nil => rfl
  | cons c cs ih =>
    simp only [List.map_cons, List.cons_append, List.filter_cons] at ih ⊢
    simpa [messageEvent, contentOf] using ih

/-- Every image of the message-event constructor is a `message` event. -/
theorem mem_map_messageEvent (cid model : String) (b : Int) (cs : List String) :
    ∀ e ∈ cs.map fun c => messageEvent c cid model b, e.event = "message" := by
  intro e he
  simp only [List.mem_map] at he
  obtain ⟨c, _, rfl⟩ := he
  rfl

/-! ### Claim theorems -/

/-- Claim C7: the reconnect hint obeys `next = min(2 × current, 20000)`:
`calculate_retry_timeout` is exactly that law, is monotone, never exceeds
the 20000 ms ceiling, and applied `n ≥ 1` times to the baseline `b` yields
`min(2^n × b, 20000)`.  Within a stream, every event emitted after a
successfully yielded chunk carries the baseline again (the chunk loop
resets `retry_timeout` to `settings.request_timeout`), so `message` and
`end` events carry the baseline and the single terminal `error` event of a
failed stream carries the doubled, capped hint `min(2·b, 20000)`. -/
theorem retry_hint_doubling_law (n : Nat) (b t t' : Int) (stg : AppSettings)
    (llm : ModelClient) (msgs : List ChatMessage) (cid c : String)
    (cs : List String) (rt : Int)
    (hn : 1 ≤ n) (ht : t ≤ t') :
    calculate_retry_timeout t = min (2 * t) 20000 ∧
    calculate_retry_timeout t ≤ calculate_retry_timeout t' ∧
    calculate_retry_timeout t ≤ 20000 ∧
    calculate_retry_timeout^[n] b = min (2 ^ n * b) 20000 ∧
    (chunkLoop cid stg.llm_model stg.request_timeout (c :: cs) rt).1 =
      messageEvent c cid stg.llm_model rt ::
        (chunkLoop cid stg.llm_model stg.request_timeout cs stg.request_timeout).1 ∧
    (msgs ≠ [] → llm.astream (translateMessages msgs) = (cs, .completed) →
      (generate_stream stg true llm msgs cid).events =
        (cs.map fun x => messageEvent x cid stg.llm_model stg.request_timeout) ++
          [endEvent cid stg.request_timeout]) ∧
    (msgs ≠ [] → llm.astream (translateMessages msgs) = (cs, .readTimeout) →
      (generate_stream stg true llm msgs cid).events =
        (cs.map fun x => messageEvent x cid stg.llm_model stg.request_timeout) ++
          [errorEvent "stream_timeout" (min (2 * stg.request_timeout) 20000)]) := by
  refine ⟨rfl, ?_, ?_, ?_, rfl, ?_, ?_⟩
  · unfold calculate_retry_timeout
    exact min_le_min (by omega) le_rfl
  · exact min_le_right _ _
  · induction n with
    | zero => omega
    | succ m ih =>
      rcases Nat.eq_or_lt_of_le hn with h1 | h1
      · simp [← h1, calculate_retry_timeout]
      · have hm : 1 ≤ m := by omega
        rw [Function.iterate_succ_apply', ih hm]
        unfold calculate_retry_timeout
        have h2x : 2 ^ (m + 1) * b = 2 * (2 ^ m * b) := by rw [pow_succ]; ring
        rw [h2x]
        generalize (2 : Int) ^ m * b = x
        simp only []
        omega
  · intro hne hrun
    rw [generate_stream_completed stg llm msgs cid cs hne hrun]
  · intro hne hrun
    rw [generate_stream_timeout stg llm msgs cid cs hne hrun]
    rfl

/-- Witness for C7 at `n = 3`, baseline 30 (the configured
`request_timeout` default), `t = 10 ≤ t' = 20`. -/
theorem retry_hint_doubling_law_witness :
    calculate_retry_timeout^[3] 30 = min (2 ^ 3 * 30) 20000 := by
  exact (retry_hint_doubling_law 3 30 10 20 defaultSettings demoLlm demoReq.messages
    "c" "tok" [] 30 (by decide) (by decide)).2.2.2.1

/-- Claim C10: `get_relevant_context` never raises: it returns `[]` when
the vector store is not connected and when the underlying similarity search
raises; on success it returns the hits mapped to the `{text, metadata,
score}` shape, hence at most `k` results whenever the collaborator returns
at most `k` hits. -/
theorem context_retrieval_never_fails
    (sim : String → Nat → String → Except String (List SearchHit))
    (q cid msg : String) (k : Nat) (hits : List SearchHit) :
    get_relevant_context false sim q cid k = [] ∧
    (sim q k cid = .error msg → get_relevant_context true sim q cid k = []) ∧
    (sim q k cid = .ok hits →
      get_relevant_context true sim q cid k =
        hits.map (fun h =>
          { text := h.pageContent, metadata := h.metadata, score := 1 - h.score }) ∧
      (hits.length ≤ k → (get_relevant_context true sim q cid k).length ≤ k)) := by
  refine ⟨rfl, ?_, ?_⟩
  · intro h
    simp [get_relevant_context, h]
  · intro h
    constructor
    · simp [get_relevant_context, h]
    · intro hk
      simp [get_relevant_context, h, hk]

/-- Witness for C10: a disconnected store, a raising search, and a
successful two-hit search with `k = 3`. -/
theorem context_retrieval_never_fails_witness :
    get_relevant_context true (fun _ _ _ => .error "boom") "q" "c" 3 = [] := by
  exact (context_retrieval_never_fails (fun _ _ _ => .error "boom") "q" "c" "boom" 3
    []).2.1 rfl

/-- Claim C8: message translation converts `user`/`assistant`/`system`
messages, in input order, to the native model-client representation; any
other role is dropped without raising; and a nonempty request consisting
only of unknown roles still attempts the stream, handing the model backend
an empty message list and completing normally when the backend does. -/
theorem unknown_roles_dropped_stream_proceeds (stg : AppSettings) (llm : ModelClient)
    (msgs : List ChatMessage) (cid : String) (cs : List String)
    (hunknown : ∀ m ∈ msgs, m.role ≠ "user" ∧ m.role ≠ "assistant" ∧ m.role ≠ "system")
    (hne : msgs ≠ [])
    (hrun : llm.astream [] = (cs, .completed)) :
    translateMessages msgs = [] ∧
    (generate_stream stg true llm msgs cid).modelInput = some [] ∧
    (generate_stream stg true llm msgs cid).raised = none ∧
    (generate_stream stg true llm msgs cid).events =
      (cs.map fun x => messageEvent x cid stg.llm_model stg.request_timeout) ++
        [endEvent cid stg.request_timeout] ∧
    (∀ m ms, m.role = "user" →
      translateMessages (m :: ms) = .human m.content :: translateMessages ms) ∧
    (∀ m ms, m.role = "assistant" →
      translateMessages (m :: ms) = .ai m.content :: translateMessages ms) ∧
    (∀ m ms, m.role = "system" →
      translateMessages (m :: ms) = .system m.content :: translateMessages ms) ∧
    (∀ m ms, m.role ≠ "user" → m.role ≠ "assistant" → m.role ≠ "system" →
      translateMessages (m :: ms) = translateMessages ms) := by
  have htr : translateMessages msgs = [] := by
    rw [translateMessages, List.filterMap_eq_nil_iff]
    intro m hm
    have h := hunknown m hm
    unfold translateOne
    simp [h.1, h.2.1, h.2.2]
  have hrun2 : llm.astream (translateMessages msgs) = (cs, .completed) := by
    rw [htr]; exact hrun
  have hgen := generate_stream_completed stg llm msgs cid cs hne hrun2
  refine ⟨htr, ?_, ?_, ?_, ?_, ?_, ?_, ?_⟩
  · rw [hgen, htr]
  · rw [hgen]
  · rw [hgen]
  · intro m ms h
    simp [translateMessages, translateOne, h]
  · intro m ms h
    simp [translateMessages, translateOne, h]
  · intro m ms h
    simp [translateMessages, translateOne, h]
  · intro m ms h1 h2 h3
    simp [translateMessages, translateOne, h1, h2, h3]

/-- Witness for C8: a single-message request whose role `tool` is unknown,
against a backend that yields one chunk and completes. -/
theorem unknown_roles_dropped_stream_proceeds_witness :
    translateMessages [{ role := "tool", content := "x" }] = [] := by
  exact (unknown_roles_dropped_stream_proceeds defaultSettings demoLlm
    [{ role := "tool", content := "x" }] "c" ["Hello"]
    (by intro m hm; simp at hm; subst hm; refine ⟨by decide, by decide, by decide⟩)
    (by simp) rfl).1

/-- Claim C4 counterexample: calling `generate_stream` before the model
client is initialised raises `StreamConnectionError("LLM service
unavailable")` without yielding anything, so that execution emits zero
events and in particular no terminal event — the claimed lifecycle shape
fails for it. -/
theorem uninitialized_stream_has_no_terminal_event :
    (generate_stream defaultSettings false demoLlm demoReq.messages "c").events = [] ∧
    (generate_stream defaultSettings false demoLlm demoReq.messages "c").raised =
      some "LLM service unavailable" ∧
    ¬ terminalShaped (generate_stream defaultSettings false demoLlm demoReq.messages "c").events := by
  refine ⟨rfl, rfl, ?_⟩
  rintro ⟨ms, tl, h, -, -⟩
  have : ([] : List StreamEvent) = ms ++ [tl] := h
  exact absurd this.symm (by simp)

/-- Claim C4 (amended): for every execution of `generate_stream` on an
initialised service — whatever the messages, the model chunks and the
outcome — the emitted sequence is zero or more `message` events followed by
exactly one terminal (`end` or `error`) event, with nothing after it. -/
theorem stream_lifecycle_shape (stg : AppSettings) (llm : ModelClient)
    (msgs : List ChatMessage) (cid : String) :
    terminalShaped (generate_stream stg true llm msgs cid).events := by
  cases hm : msgs with
  | nil =>
    refine ⟨[], errorEvent "stream_failure" (calculate_retry_timeout stg.request_timeout),
      rfl, by simp, Or.inr rfl⟩
  | cons a l =>
    rcases hrun : llm.astream (translateMessages (a :: l)) with ⟨cs, outc⟩
    have hne : (a :: l) ≠ ([] : List ChatMessage) := by simp
    cases outc with
    | completed =>
      rw [generate_stream_completed stg llm (a :: l) cid cs hne hrun]
      exact ⟨_, _, rfl, mem_map_messageEvent cid stg.llm_model stg.request_timeout cs,
        Or.inl rfl⟩
    | readTimeout =>
      rw [generate_stream_timeout stg llm (a :: l) cid cs hne hrun]
      exact ⟨_, _, rfl, mem_map_messageEvent cid stg.llm_model stg.request_timeout cs,
        Or.inr rfl⟩
    | failure =>
      rw [generate_stream_failure stg llm (a :: l) cid cs hne hrun]
      exact ⟨_, _, rfl, mem_map_messageEvent cid stg.llm_model stg.request_timeout cs,
        Or.inr rfl⟩

/-- Witness for C4 (amended): the lifecycle shape at a concrete completed
run. -/
theorem stream_lifecycle_shape_witness :
    terminalShaped (generate_stream defaultSettings true demoLlm demoReq.messages "c").events :=
  stream_lifecycle_shape defaultSettings demoLlm demoReq.messages "c"

/-- Claim C2: when the model client signals `httpx.ReadTimeout` mid-stream,
`generate_stream` emits no `end` event, emits exactly one `error` event,
with code `stream_timeout` and the doubled capped retry hint, as its last
event, and raises `StreamConnectionError("Stream timeout")`; and whenever
the stream body of the `/message` endpoint ends in a raised exception, the
conversation store is exactly what it was before the call (the partial
response is discarded). -/
theorem timeout_emits_error_and_preserves_store (stg : AppSettings) (llm : ModelClient)
    (msgs : List ChatMessage) (cid : String) (cs : List String)
    (stg2 : AppSettings) (llmInit2 : Bool) (llm2 : ModelClient)
    (store : ConvStore) (req : ChatRequest)
    (hne : msgs ≠ [])
    (hrun : llm.astream (translateMessages msgs) = (cs, .readTimeout)) :
    (generate_stream stg true llm msgs cid).events =
      (cs.map fun x => messageEvent x cid stg.llm_model stg.request_timeout) ++
        [errorEvent "stream_timeout" (calculate_retry_timeout stg.request_timeout)] ∧
    ((generate_stream stg true llm msgs cid).events.filter fun e => e.event = "end") = [] ∧
    ((generate_stream stg true llm msgs cid).events.filter fun e => e.event = "error") =
      [errorEvent "stream_timeout" (calculate_retry_timeout stg.request_timeout)] ∧
    (generate_stream stg true llm msgs cid).events.getLast? =
      some (errorEvent "stream_timeout" (calculate_retry_timeout stg.request_timeout)) ∧
    (generate_stream stg true llm msgs cid).raised = some "Stream timeout" ∧
    (∀ evs exn st', runGenerate stg2 llmInit2 llm2 store req = .raised evs exn st' →
      st' = store) := by
  have hgen := generate_stream_timeout stg llm msgs cid cs hne hrun
  refine ⟨by rw [hgen], ?_, ?_, ?_, by rw [hgen], ?_⟩
  · rw [hgen]
    simp only [List.filter_append,
      filter_message_events cid stg.llm_model stg.request_timeout cs "end" (by decide)]
    simp [errorEvent]
  · rw [hgen]
    simp only [List.filter_append,
      filter_message_events cid stg.llm_model stg.request_timeout cs "error" (by decide)]
    simp [errorEvent]
  · rw [hgen]
    simp
  · intro evs exn st' h
    have hbind : kwargsBind generate_stream_param_names chat_endpoint_call_keywords = false :=
      rfl
    unfold runGenerate at h
    rw [hbind] at h
    simp only [Bool.false_eq_true, if_false] at h
    cases h
    rfl

/-- Witness for C2: a model stream that yields two chunks and then times
out. -/
theorem timeout_emits_error_and_preserves_store_witness :
    (generate_stream defaultSettings true ⟨fun _ => (["He", "llo"], .readTimeout)⟩
      [{ role := "user", content := "hi" }] "c").raised = some "Stream timeout" := by
  exact (timeout_emits_error_and_preserves_store defaultSettings
    ⟨fun _ => (["He", "llo"], .readTimeout)⟩ [{ role := "user", content := "hi" }] "c"
    ["He", "llo"] defaultSettings true demoLlm emptyStore demoReq
    (by simp) rfl).2.2.2.2.1

/-- Claim C1: on normal exhaustion of the model token stream, exactly one
`end` event is emitted and it is the last event; the collected response is
the in-order list of `message` chunk contents; and the history update of
`main.py` 128-133 leaves the Conversation Store entry for the conversation
id equal to the prior stored history, then the request's new messages, then
one assistant message whose content is the concatenation of all emitted
`message` contents. -/
theorem normal_completion_appends_history (stg : AppSettings) (llm : ModelClient)
    (store : ConvStore) (req : ChatRequest) (cs : List String)
    (hne : fullMessages (getOrCreateConv store req) req ≠ [])
    (hrun : llm.astream (translateMessages (fullMessages (getOrCreateConv store req) req)) =
      (cs, .completed)) :
    (generate_stream stg true llm (fullMessages (getOrCreateConv store req) req)
        req.conversation_id).events =
      (cs.map fun x => messageEvent x req.conversation_id stg.llm_model stg.request_timeout) ++
        [endEvent req.conversation_id stg.request_timeout] ∧
    ((generate_stream stg true llm (fullMessages (getOrCreateConv store req) req)
        req.conversation_id).events.filter fun e => e.event = "end") =
      [endEvent req.conversation_id stg.request_timeout] ∧
    (generate_stream stg true llm (fullMessages (getOrCreateConv store req) req)
        req.conversation_id).events.getLast? =
      some (endEvent req.conversation_id stg.request_timeout) ∧
    collectResponse (generate_stream stg true llm
      (fullMessages (getOrCreateConv store req) req) req.conversation_id).events = cs ∧
    updateConversationHistory store req (getOrCreateConv store req)
        (collectResponse (generate_stream stg true llm
          (fullMessages (getOrCreateConv store req) req) req.conversation_id).events)
        req.conversation_id =
      some { user_id := (getOrCreateConv store req).user_id
             messages := (getOrCreateConv store req).messages ++ req.messages ++
               [{ role := "assistant", content := String.join cs }] } := by
  have hgen := generate_stream_completed stg llm
    (fullMessages (getOrCreateConv store req) req) req.conversation_id cs hne hrun
  have hcollect : collectResponse (generate_stream stg true llm
      (fullMessages (getOrCreateConv store req) req) req.conversation_id).events = cs := by
    rw [hgen]
    exact collectResponse_completed req.conversation_id stg.llm_model
      stg.request_timeout stg.request_timeout cs
  refine ⟨by rw [hgen], ?_, ?_, hcollect, ?_⟩
  · rw [hgen]
    simp only [List.filter_append,
      filter_message_events req.conversation_id stg.llm_model stg.request_timeout cs "end"
        (by decide)]
    simp [endEvent]
  · rw [hgen]
    simp
  · rw [hcollect]
    unfold updateConversationHistory ConvStore.set
    simp

/-- Witness for C1: an empty store, the request of `test_message.py`, and a
model stream yielding one chunk. -/
theorem normal_completion_appends_history_witness :
    collectResponse (generate_stream defaultSettings true demoLlm
      (fullMessages (getOrCreateConv emptyStore demoReq) demoReq)
      demoReq.conversation_id).events = ["Hello"] := by
  exact (normal_completion_appends_history defaultSettings demoLlm emptyStore demoReq
    ["Hello"] (by decide) rfl).2.2.2.1

/-- Claim C5 (code defect): `OllamaStreamingService.generate_stream`
declares only `messages` and `conversation_id`, yet the `/message`
endpoint's `generate()` calls it with an additional `user_id` keyword, so
the call does not bind and every `/message` stream raises `TypeError`
before producing any event, leaving the store untouched. -/
theorem generate_stream_call_binding_defect :
    kwargsBind generate_stream_param_names chat_endpoint_call_keywords = false ∧
    generate_stream_param_names.contains "user_id" = false ∧
    runGenerate defaultSettings true demoLlm emptyStore demoReq =
      .raised [] "TypeError: generate_stream() got an unexpected keyword argument: user_id"
        emptyStore :=
  ⟨rfl, rfl, rfl⟩

/-- Claim C6 (code defect): the identifiers are UUID-shaped and are echoed
in the `X-User-ID` / `X-Conversation-ID` response headers, and the terminal
`end` event echoes the conversation id — but its payload carries no
`user_id` field at all (the repository's own `test_message.py` reads
`event_data['data']['user_id']` from the `end` event). -/
theorem end_event_lacks_user_id :
    uuidShaped demoReq.user_id = true ∧
    uuidShaped demoReq.conversation_id = true ∧
    chatResponseHeaders demoReq =
      [("X-User-ID", "2d372ddb-7cb6-46a9-8897-bdbc594ff37d"),
       ("X-Conversation-ID", "99f08a62-7fec-4563-9b53-80471ed0a2a3")] ∧
    (generate_stream defaultSettings true demoLlm demoReq.messages
      demoReq.conversation_id).events.getLast? =
      some (endEvent demoReq.conversation_id 30) ∧
    (endEvent demoReq.conversation_id 30).data.lookup "user_id" = none ∧
    (endEvent demoReq.conversation_id 30).data.lookup "conversation_id" =
      some (.str "99f08a62-7fec-4563-9b53-80471ed0a2a3") :=
  ⟨by decide, by decide, rfl, rfl, rfl, rfl⟩

/-- Claim C9 (code defect): the `/upsert` handler reads `data.user_id`,
which `DocumentUpsertRequest` does not declare, and would pass `user_id=`
to a callee whose parameters are `documents, conversation_id`; so every
request — including the repository's own `test_upsert.py` request — is
answered with the 500 `{"error": ...}` payload, nothing is ever stored, and
the success response is unreachable, although the storage routine itself
would tag and store the documents if it were reached. -/
theorem upsert_endpoint_rejects_all_requests :
    pyGetAttrDefined documentUpsertRequest_field_names "user_id" = false ∧
    kwargsBind vs_upsert_documents_param_names upsert_call_keywords = false ∧
    upsert_endpoint [] demoUpsertReq = (.errorJson 500, []) ∧
    (upsert_endpoint [] demoUpsertReq).1 ≠ UpsertResponse.success ∧
    vs_upsert_documents true none demoUpsertReq.documents demoUpsertReq.conversation_id =
      .ok [{ id := "test_000", text := "PUT YOUR KNOWLEDGE HERE"
             metadata := [("timestamp", .str "2025-02-13"),
                          ("conversation_id", .str "5b4332bb-12df-4173-9186-d63f6586ca40")] }] :=
  ⟨rfl, rfl, rfl, by decide, rfl⟩

/-- Claim C3 counterexample: the wire text the service writes for an event
contains no `event:` field line at all (the event type travels inside the
JSON payload); the non-ASCII payload character `é` is not preserved
literally on the wire (`json.dumps` escapes it); and a malformed input with
the non-positive retry value `-5` is not rejected — a full frame is
produced for it. -/
theorem sse_frame_counterexample :
    (splitLines (sseWire (messageEvent "é" "c" "m" (-5))).data).all
      (fun l => decide (l.take 6 ≠ "event:".data)) = true ∧
    'é' ∈ "é".data ∧
    'é' ∉ (sseWire (messageEvent "é" "c" "m" (-5))).data ∧
    (sseWire (messageEvent "é" "c" "m" (-5))).data ≠ [] := by
  refine ⟨?_, by decide, ?_, ?_⟩
  · rw [List.all_eq_true]
    intro l hl
    rw [splitLines_sseWire] at hl
    simp only [List.mem_cons, List.not_mem_nil, or_false] at hl
    rcases hl with rfl | rfl | rfl
    · simp only [decide_eq_true_eq]
      have ht6 : List.take 6 ((['d', 'a', 't', 'a', ':', ' '] : List Char) ++
          dumpsChars (messageEvent "é" "c" "m" (-5)).toJson) =
          ['d', 'a', 't', 'a', ':', ' '] := List.take_left' rfl
      rw [ht6]
      decide
    · decide
    · decide
  · intro h
    rw [sseWire_data] at h
    rcases List.mem_append.mp h with h | h
    · rcases List.mem_append.mp h with h | h
      · revert h; decide
      · have hp := dumpsChars_printable _ 'é' h
        revert hp; decide
    · revert h; decide
  · rw [sseWire_data]
    simp

/-- Claim C3 (amended): each StreamEvent is framed as a single `data:` line
holding `json.dumps(chunk)` (event type and retry embedded in the JSON, not
as separate SSE fields), terminated by a blank line; the dumped text is
printable ASCII (non-ASCII characters are `\u`-escaped), so it occupies
exactly one `data:` line; concatenating the `data:` line bodies — the one
line — and parsing it as JSON reproduces the event payload exactly.  No
validation of the formatter inputs is performed. -/
theorem sse_frame_single_data_line (e : StreamEvent) :
    (sseWire e).data = ("data: ".data ++ dumpsChars e.toJson) ++ '\n' :: ('\n' :: []) ∧
    splitLines (sseWire e).data = [("data: ".data ++ dumpsChars e.toJson), [], []] ∧
    dataLineBodies (sseWire e).data = [dumpsChars e.toJson] ∧
    parseJson (dumps e.toJson) = some e.toJson ∧
    ∀ c ∈ dumpsChars e.toJson, 32 ≤ c.toNat ∧ c.toNat ≤ 127 :=
  ⟨sseWire_data e, splitLines_sseWire e, dataLineBodies_sseWire e,
    parseJson_dumps e.toJson, dumpsChars_printable e.toJson⟩

/-- Witness for C3 (amended): the JSON round trip at a concrete terminal
event. -/
theorem sse_frame_single_data_line_witness :
    parseJson (dumps (endEvent "conv" 30).toJson) = some ((endEvent "conv" 30).toJson) :=
  (sse_frame_single_data_line (endEvent "conv" 30)).2.2.2.1

end ChatService
